import Mathlib

/-!
Shallow embedding of the kivensoft/http_proxy gateway management handlers
(src/apis.rs) and startup sequence (src/main.rs).

External library calls (urlencoding::decode, appconfig/asynclog helpers,
SocketAddr parsing, the registry in proxy.rs) are passed in as function
parameters or, where a claim depends on registry semantics, modelled from
the specification and marked as such.
-/

deriving instance DecidableEq for Except

namespace HttpProxy

/-- Splits a character list at every occurrence of the separator `c`,
mirroring Rust `str::split(c)`: the empty string yields one empty piece,
and adjacent separators yield empty pieces. -/
def splitOnChar (c : Char) : List Char → List (List Char)
  | [] => [[]]
  | x :: xs =>
    let r := splitOnChar c xs
    if x = c then [] :: r
    else
      match r with
      | [] => [[x]]
      | h :: t => (x :: h) :: t

/-- Boolean test that the first list is an initial segment of the second. -/
def listPrefixOf : List Char → List Char → Bool
  | [], _ => true
  | _ :: _, [] => false
  | a :: as, b :: bs => a == b && listPrefixOf as bs

/-- Rust `str::starts_with` on the embedded strings. -/
def strStartsWith (s pre : String) : Bool :=
  listPrefixOf pre.toList s.toList

/-- Rust `str::ends_with` on the embedded strings. -/
def strEndsWith (s suf : String) : Bool :=
  listPrefixOf suf.toList.reverse s.toList.reverse

/-- Rust `str::contains(char)` on the embedded strings. -/
def strContains (s : String) (c : Char) : Bool :=
  s.toList.contains c

/-- The substring following the last `/` of `s`, or `none` when `s` has no
`/`. This is exactly what `s.rfind('/')` followed by the slice `s[pos+1..]`
produces in src/apis.rs (used on URL paths in `query` and
`get_reply_param`). -/
def tailSegment (s : String) : Option String :=
  if strContains s '/' then
    match (splitOnChar '/' s.toList).getLast? with
    | some l => some (String.mk l)
    | none => none
  else none

/-- The `querystring::querify` helper used by `get_reply_param`: split the
query string on `&`, split each piece on `=` keeping the first two fields,
and drop pieces without a `=`. -/
def querify (s : String) : List (String × String) :=
  (splitOnChar '&' s.toList).filterMap (fun pair =>
    match splitOnChar '=' pair with
    | k :: v :: _ => some (String.mk k, String.mk v)
    | _ => none)

/-- Handler response, mirroring the httpserver `Resp` constructors used in
src/apis.rs: `Resp::ok(body)`, `Resp::ok_with_empty()`, and
`Resp::fail(msg)`. -/
inductive Resp (α : Type) where
  | ok (body : α)
  | okEmpty
  | fail (msg : String)
deriving DecidableEq

/-- Request body shared by `reg` and `unreg` (src/apis.rs `RegRequest`):
`endpoint` is mandatory for the JSON parse to succeed, `path` and `paths`
are optional. -/
structure RegRequest where
  endpoint : String
  path : Option String
  paths : Option (List String)
deriving DecidableEq

/-- The `reg` handler (src/apis.rs lines 118-147) after a successful JSON
parse. Besides the HTTP response it returns the ordered list of
`(path, endpoint)` argument pairs passed to `proxy::register_service`; the
boolean that `register_service` returns only drives logging in the source,
so it does not influence the handler result. Note the source declares a
serializable `Res { endpoint }` struct but answers with
`Resp::ok_with_empty()`, so the success body is empty. -/
def reg (param : RegRequest) : Resp Unit × List (String × String) :=
  if param.path = none ∧ param.paths = none then
    (Resp.fail "param path and paths not find", [])
  else
    let single :=
      match param.path with
      | some p => [(p, param.endpoint)]
      | none => []
    let multi :=
      match param.paths with
      | some ps => ps.map (fun p => (p, param.endpoint))
      | none => []
    (Resp.okEmpty, single ++ multi)

/-- The `unreg` handler (src/apis.rs lines 150-174) after a successful JSON
parse, returning the response together with the ordered `(path, endpoint)`
argument pairs passed to `proxy::unregister_service`; `unregister_service`
returns nothing, so the handler result never depends on registry state. -/
def unreg (param : RegRequest) : Resp Unit × List (String × String) :=
  if param.path = none ∧ param.paths = none then
    (Resp.fail "param path and paths not find", [])
  else
    let single :=
      match param.path with
      | some p => [(p, param.endpoint)]
      | none => []
    let multi :=
      match param.paths with
      | some ps => ps.map (fun p => (p, param.endpoint))
      | none => []
    (Resp.okEmpty, single ++ multi)

/-- Request body of `query` (src/apis.rs `Req` local to `query`). -/
structure QueryReq where
  path : Option String
  paths : Option (List String)
deriving DecidableEq

/-- Response body of `query` (src/apis.rs `Res` local to `query`): the
`services` field carries a serde `skip_serializing_if` attribute, so
`none` means the field is absent from the JSON; `list` items pair a path
with its services. -/
structure QueryRes where
  services : Option (List String)
  list : Option (List (String × List String))
deriving DecidableEq

/-- The `query` handler (src/apis.rs lines 60-115). `dec` stands for
`urlencoding::decode` (`none` = decode error, which the source propagates
with `?`, hence the `Except` result), `q` for `proxy::service_query`,
`urlPath` for `ctx.req.uri().path()` and `body` for the parsed optional
JSON body from `into_opt_json` (a missing body becomes the all-`none`
request, exactly as `unwrap_or` does in the source). -/
def query (dec : String → Option String) (q : String → Option (List String))
    (urlPath : String) (body : Option QueryReq) :
    Except String (Resp QueryRes) :=
  let param0 := body.getD ⟨none, none⟩
  let derived : Except String (Option String) :=
    if param0.path = none ∧ ¬ strEndsWith urlPath "/query" then
      match tailSegment urlPath with
      | some seg =>
        match dec seg with
        | some v => Except.ok (some v)
        | none => Except.error "urlencoding decode failed"
      | none => Except.ok param0.path
    else Except.ok param0.path
  match derived with
  | Except.error e => Except.error e
  | Except.ok path0 =>
    let param : QueryReq := ⟨path0, param0.paths⟩
    if param.path = none ∧ param.paths = none then
      Except.ok (Resp.fail "param path and paths not find")
    else
      match param.path with
      | some p => Except.ok (Resp.ok ⟨q p, none⟩)
      | none =>
        match param.paths with
        | some ps =>
          Except.ok (Resp.ok
            ⟨none, some (ps.filterMap (fun p => (q p).map (fun s => (p, s))))⟩)
        | none => Except.ok Resp.okEmpty

/-- Modelled from the spec: `proxy::service_query` (proxy.rs is not among
the visible sources). Spec section 4.1: `query(path)` returns `None`/absent
if the path is unknown or its group is empty; otherwise the current member
addresses. The registry is modelled as a list of `(path, endpoints)`
groups. -/
def service_query (registry : List (String × List String)) (path : String) :
    Option (List String) :=
  match registry.find? (fun g => g.1 == path) with
  | some g => if g.2 = [] then none else some g.2
  | none => none

/-- Scans query-string pairs for the first `reply` entry whose value
url-decodes to a non-empty string, mirroring the loop in `get_reply_param`
(src/apis.rs lines 190-199): entries whose decode fails or yields the empty
string are skipped, not returned. -/
def findReply (dec : String → Option String) :
    List (String × String) → Option String
  | [] => none
  | (k, v) :: rest =>
    if k = "reply" then
      match dec v with
      | some val => if val = "" then findReply dec rest else some val
      | none => findReply dec rest
    else findReply dec rest

/-- The `get_reply_param` helper (src/apis.rs lines 177-213). `bodyReply`
is the `reply` field of the parsed JSON body when `into_opt_json` returned
`Ok(Some(..))`; the source ignores body parse failures here rather than
propagating them. `path` and `querystring` are the URI path and the query
string (already defaulted to `""` by `unwrap_or`). -/
def get_reply_param (dec : String → Option String) (bodyReply : Option String)
    (path querystring : String) : String :=
  let fromPath : String :=
    if ¬ strEndsWith path "/ping" then
      match tailSegment path with
      | some seg =>
        match dec seg with
        | some v => if v = "" then "pong" else v
        | none => "pong"
      | none => "pong"
    else "pong"
  let fromQuery : String :=
    if querystring ≠ "" then
      match findReply dec (querify querystring) with
      | some v => v
      | none => fromPath
    else fromPath
  match bodyReply with
  | some r => if r = "" then fromQuery else r
  | none => fromQuery

/-- Response body of `ping` (src/apis.rs `Res` local to `ping`); `now`
models the `LocalTime::now()` timestamp. -/
structure PingRes where
  reply : String
  now : Int
  server : String
deriving DecidableEq

/-- `APP_NAME` from src/main.rs. -/
def APP_NAME : String := "httpproxy"

/-- The `ping` handler (src/apis.rs lines 24-40): always a success response
whose reply comes from `get_reply_param` and whose server field is
`format_compact!("{}/{}", APP_NAME, APP_VER)`; `appVer` stands for the
build-generated `APP_VER` constant. -/
def ping (dec : String → Option String) (bodyReply : Option String)
    (path querystring : String) (now : Int) (appVer : String) : Resp PingRes :=
  Resp.ok ⟨get_reply_param dec bodyReply path querystring, now,
    APP_NAME ++ "/" ++ appVer⟩

/-- Configuration record generated by `appconfig_define!` in src/main.rs. -/
structure AppConf where
  log_level : String
  log_file : String
  log_max : String
  log_async : Bool
  no_console : Bool
  threads : String
  listen : String
  conn_timeout : String
  gw_path : String
deriving DecidableEq

/-- Default configuration (src/main.rs `impl Default for AppConf`). -/
def AppConf.default : AppConf :=
  ⟨"info", "", "10m", false, false, "1", "127.0.0.1:3003", "3", "/api/gw"⟩

/-- Rust `str::parse` for an unsigned integer of the given bit width: an
optional leading `+`, then at least one ASCII digit, rejecting values that
overflow the width. -/
def parseRustUInt (width : Nat) (s : String) : Option Nat :=
  let ds :=
    match s.toList with
    | '+' :: rest => rest
    | l => l
  if ds = [] then none
  else if ds.all (fun c => c.isDigit) then
    let v := ds.foldl (fun a c => a * 10 + (c.toNat - 48)) 0
    if v < 2 ^ width then some v else none
  else none

/-- The listen-address rewrite in `init` (src/main.rs lines 84-86): a value
starting with `:` gets `0.0.0.0` prepended. -/
def fixListen (listen : String) : String :=
  match listen.toList with
  | ':' :: _ => "0.0.0.0" ++ listen
  | _ => listen

/-- Panic messages built by the `arg_err!` macro in src/main.rs. -/
def arg_err (t : String) : String := "参数 " ++ t ++ " 格式错误"

/-- `init` (src/main.rs lines 68-108). External library calls are
abstracted: `parseArgs` models `appconfig::parse_args` (`none` = error, so
`expect` panics; `some false` = the source returns `None` and the process
exits without serving; `some true` = continue), `parseLevel` and
`parseSize` model `asynclog::parse_level` and `asynclog::parse_size`, and
`initLog` models `asynclog::init_log` (`none` = error). `Except.error`
models a startup panic with the panic message. On success it returns the
possibly-rewritten config and the parsed `connect_timeout`, in this source
order: parse_args, conn-timeout parse, listen rewrite, log-level parse,
log-max parse, log init. -/
def init (parseArgs : Option Bool) (parseLevel : String → Option Nat)
    (parseSize : String → Option Nat) (initLog : Option Unit) (ac : AppConf) :
    Except String (Option (AppConf × Nat)) :=
  match parseArgs with
  | none => Except.error "解析参数失败"
  | some false => Except.ok none
  | some true =>
    match parseRustUInt 32 ac.conn_timeout with
    | none => Except.error (arg_err "conn-timeout")
    | some connectTimeout =>
      let ac2 := { ac with listen := fixListen ac.listen }
      match parseLevel ac2.log_level with
      | none => Except.error (arg_err "log-level")
      | some _ =>
        match parseSize ac2.log_max with
        | none => Except.error (arg_err "log-max")
        | some _ =>
          match initLog with
          | none => Except.error "初始化日志错误"
          | some _ => Except.ok (some (ac2, connectTimeout))

/-- Outcome of `main`: the process either exited before serving (when
`init` returned `None`) or reached `block_on(srv.run(addr))` and started
serving on the parsed address with the parsed thread count. -/
inductive RunResult (α : Type) where
  | exited
  | served (addr : α) (threads : Nat)
deriving DecidableEq

/-- `main` (src/main.rs lines 112-169), in the default single-thread build
(`not(feature = "multi_thread")`). `parseAddr` models
`str::parse::<SocketAddr>` with `α` the address type; `.unwrap()` on a
failed parse and a failed `assert!` both panic, modelled as
`Except.error`. The source order is kept: `init`, listen parse (line 119),
threads parse (line 145), the single-thread assertion (line 149), and only
then `block_on` of `srv.run` (line 155), which `.served` marks. -/
def main (α : Type) (parseAddr : String → Option α) (parseArgs : Option Bool)
    (parseLevel parseSize : String → Option Nat) (initLog : Option Unit)
    (ac : AppConf) : Except String (RunResult α) :=
  match init parseArgs parseLevel parseSize initLog ac with
  | Except.error e => Except.error e
  | Except.ok none => Except.ok RunResult.exited
  | Except.ok (some (ac2, _ag)) =>
    match parseAddr ac2.listen with
    | none => Except.error "called Result::unwrap on an Err value: AddrParseError"
    | some addr =>
      match parseRustUInt 64 ac2.threads with
      | none => Except.error (arg_err "threads")
      | some threads =>
        if threads = 1 then
          Except.ok (RunResult.served addr threads)
        else
          Except.error (APP_NAME ++ "当前版本不支持多线程")

theorem splitOnChar_ne_nil (c : Char) (l : List Char) : splitOnChar c l ≠ [] := by
  induction l with
  | nil => simp [splitOnChar]
  | cons x xs ih =>
    simp only [splitOnChar]
    split
    · simp
    · split
      · simp
      · simp

theorem contains_of_listPrefixOf_single {c : Char} {l : List Char}
    (h : listPrefixOf [c] l = true) : l.contains c = true := by
  cases l with
  | nil => simp [listPrefixOf] at h
  | cons b bs =>
    simp only [listPrefixOf, Bool.and_eq_true, beq_iff_eq] at h
    simp [List.contains, h.1]

theorem tailSegment_isSome {s : String} (h : strStartsWith s "/" = true) :
    ∃ seg, tailSegment s = some seg := by
  have hc : strContains s '/' = true := by
    have h1 : ("/" : String).toList = ['/'] := by decide
    unfold strStartsWith at h
    rw [h1] at h
    exact contains_of_listPrefixOf_single h
  obtain ⟨l, hl⟩ := Option.isSome_iff_exists.mp
    (List.getLast?_isSome.mpr (splitOnChar_ne_nil '/' s.toList))
  refine ⟨String.mk l, ?_⟩
  simp only [String.toList] at hl
  simp [tailSegment, hc, hl]


theorem findReply_ne_empty (dec : String → Option String) :
    ∀ (l : List (String × String)) (v : String),
      findReply dec l = some v → v ≠ "" := by
  intro l
  induction l with
  | nil => intro v h; simp [findReply] at h
  | cons kv rest ih =>
    intro v h
    obtain ⟨k, w⟩ := kv
    simp only [findReply] at h
    split at h
    · split at h
      · split at h
        · exact ih v h
        · rename_i val hval hne
          cases h
          exact hne
      · exact ih v h
    · exact ih v h

theorem qmap_fst (q : String → Option (List String)) (ps : List String) :
    (ps.filterMap (fun p => (q p).map (fun s => (p, s)))).map Prod.fst =
      ps.filter (fun p => (q p).isSome) := by
  induction ps with
  | nil => simp
  | cons p rest ih => cases hq : q p <;> simp [hq, ih]

theorem qmap_mem (q : String → Option (List String)) (ps : List String) :
    ∀ pr ∈ ps.filterMap (fun p => (q p).map (fun s => (p, s))),
      q pr.1 = some pr.2 := by
  intro pr hpr
  rw [List.mem_filterMap] at hpr
  obtain ⟨p, _hp, hmap⟩ := hpr
  cases hq : q p with
  | none => rw [hq] at hmap; simp at hmap
  | some s =>
    rw [hq] at hmap
    simp only [Option.map_some'] at hmap
    cases hmap
    simpa using hq

theorem service_query_eq_none {registry : List (String × List String)}
    {p : String} (h : ∀ g ∈ registry, g.1 ≠ p ∨ g.2 = []) :
    service_query registry p = none := by
  unfold service_query
  cases hf : registry.find? (fun g => g.1 == p) with
  | none => rfl
  | some g =>
    have hmem := List.mem_of_find?_eq_some hf
    have heq : g.1 = p := by simpa using List.find?_some hf
    rcases h g hmem with hne | hnil
    · exact absurd heq hne
    · simp [hnil]

/-- Claim C1 (code bug): the `reg` handler for a valid request registers the
given path for the given endpoint, but answers with an empty success body
(`Resp::ok_with_empty()`), not with the `{endpoint}` body the spec states;
the serializable `Res { endpoint }` struct declared inside `reg` is never
used. Evaluated at the failing input
`{endpoint: "10.0.0.1:8080", path: "/svc/a"}`. -/
theorem c1_reg_empty_body_bug :
    reg ⟨"10.0.0.1:8080", some "/svc/a", none⟩ =
      (Resp.okEmpty, [("/svc/a", "10.0.0.1:8080")]) := by decide

/-- Claim C2: a `reg` or `unreg` request whose body has neither `path` nor
`paths` gets the failure response `"param path and paths not find"` and
causes no `register_service` / `unregister_service` call (empty call
trace), so registry state is untouched. -/
theorem c2_missing_path_params_fail (param : RegRequest)
    (hp : param.path = none) (hps : param.paths = none) :
    reg param = (Resp.fail "param path and paths not find", []) ∧
    unreg param = (Resp.fail "param path and paths not find", []) := by
  constructor <;> simp [reg, unreg, hp, hps]

/-- Witness for C2 at the concrete body `{endpoint: "10.0.0.1:8080"}`. -/
theorem c2_witness :
    reg ⟨"10.0.0.1:8080", none, none⟩ =
      (Resp.fail "param path and paths not find", []) ∧
    unreg ⟨"10.0.0.1:8080", none, none⟩ =
      (Resp.fail "param path and paths not find", []) :=
  c2_missing_path_params_fail ⟨"10.0.0.1:8080", none, none⟩ rfl rfl

/-- Claim C7: an `unreg` request with an endpoint and at least one of
`path`/`paths` calls `unregister_service` once per listed path (single
`path` first, then each element of `paths`), each with the given endpoint,
and always answers with the empty success response; the handler never
consults the registry, so the response is the same whether or not a
`(path, endpoint)` pair was ever registered. -/
theorem c7_unreg_total_idempotent (param : RegRequest)
    (h : ¬ (param.path = none ∧ param.paths = none)) :
    unreg param = (Resp.okEmpty,
      (param.path.toList ++ param.paths.getD []).map
        (fun p => (p, param.endpoint))) := by
  obtain ⟨e, p?, ps?⟩ := param
  simp only [unreg]
  rw [if_neg h]
  cases p? <;> cases ps? <;> simp [Option.toList, Option.getD]

/-- Witness for C7: unregistering `/a`, `/b`, `/c` for one endpoint. -/
theorem c7_witness :
    unreg ⟨"10.0.0.1:8080", some "/a", some ["/b", "/c"]⟩ =
      (Resp.okEmpty, [("/a", "10.0.0.1:8080"), ("/b", "10.0.0.1:8080"),
        ("/c", "10.0.0.1:8080")]) := by
  have h := c7_unreg_total_idempotent ⟨"10.0.0.1:8080", some "/a", some ["/b", "/c"]⟩
    (by decide)
  simpa using h

/-- Claim C10: when a `query` body supplies both `path` and `paths`, the
handler answers only for the single `path` (its `services` lookup) and the
`paths` list is ignored: the response carries `list = none`, for any
decode function, registry lookup, and request URL. -/
theorem c10_path_overrides_paths (dec : String → Option String)
    (q : String → Option (List String)) (urlPath p : String)
    (ps : List String) :
    query dec q urlPath (some ⟨some p, some ps⟩) =
      Except.ok (Resp.ok ⟨q p, none⟩) := by
  simp [query]


/-- Claim C5: a `query` request to the plain `query` route whose body gives
a `paths` list and no single `path` is answered with a `list` holding one
`(path, services)` item per queried path whose `service_query` lookup
returns a result, in query order; paths for which `service_query` returns
nothing are omitted. -/
theorem c5_query_paths_list (dec : String → Option String)
    (q : String → Option (List String)) (urlPath : String) (ps : List String)
    (h : strEndsWith urlPath "/query" = true) :
    ∃ L, query dec q urlPath (some ⟨none, some ps⟩) =
        Except.ok (Resp.ok ⟨none, some L⟩) ∧
      L.map Prod.fst = ps.filter (fun p => (q p).isSome) ∧
      ∀ pr ∈ L, q pr.1 = some pr.2 := by
  refine ⟨ps.filterMap (fun p => (q p).map (fun s => (p, s))), ?_,
    qmap_fst q ps, qmap_mem q ps⟩
  simp [query, h]

/-- Witness for C5: querying `["a", "b"]` against a lookup that only knows
path `a`. -/
theorem c5_witness :
    ∃ L, query Option.some (fun p => if p = "a" then some ["e1"] else none)
        "/api/gw/query" (some ⟨none, some ["a", "b"]⟩) =
        Except.ok (Resp.ok ⟨none, some L⟩) ∧
      L.map Prod.fst = ["a", "b"].filter
        (fun p => (if p = "a" then some ["e1"] else (none : Option (List String))).isSome) ∧
      ∀ pr ∈ L, (if pr.1 = "a" then some ["e1"] else none) = some pr.2 :=
  c5_query_paths_list Option.some (fun p => if p = "a" then some ["e1"] else none)
    "/api/gw/query" ["a", "b"] (by decide)

/-- Claim C6: a single-path `query` for a path that is unknown to the
registry, or whose group has no endpoints, is answered with a success
response whose `services` field is `none` (absent from the JSON) and whose
`list` is `none` — never with a failure response. Uses the spec-modelled
`service_query`. -/
theorem c6_query_unknown_path_ok_absent (dec : String → Option String)
    (urlPath p : String) (bps : Option (List String))
    (registry : List (String × List String))
    (h : ∀ g ∈ registry, g.1 ≠ p ∨ g.2 = []) :
    query dec (service_query registry) urlPath (some ⟨some p, bps⟩) =
      Except.ok (Resp.ok ⟨none, none⟩) := by
  have hq : service_query registry p = none := service_query_eq_none h
  simp [query, hq]

/-- Witness for C6: querying path `a` against a registry holding only a
group for `b`. -/
theorem c6_witness :
    query Option.some (service_query [("b", ["10.0.0.1:8080"])]) "/api/gw/query"
      (some ⟨some "a", none⟩) = Except.ok (Resp.ok ⟨none, none⟩) :=
  c6_query_unknown_path_ok_absent Option.some "/api/gw/query" "a" none
    [("b", ["10.0.0.1:8080"])] (by decide)

/-- Claim C4: for a request URL path starting with `/`, the `query` handler
answers the failure `"param path and paths not find"` exactly when the body
gives neither `path` nor `paths` and the URL path ends with `/query`
(leaving no trailing segment to derive a path from); and when the body
lacks `path` but the URL has a trailing segment that url-decodes, the
decoded segment is used as the single query path. -/
theorem c4_query_fail_iff (dec : String → Option String)
    (q : String → Option (List String)) (urlPath : String)
    (body : Option QueryReq) (hs : strStartsWith urlPath "/" = true) :
    (query dec q urlPath body =
        Except.ok (Resp.fail "param path and paths not find") ↔
      ((body.getD ⟨none, none⟩).path = none ∧
        (body.getD ⟨none, none⟩).paths = none ∧
        strEndsWith urlPath "/query" = true)) ∧
    (∀ seg v, (body.getD ⟨none, none⟩).path = none →
      strEndsWith urlPath "/query" = false → tailSegment urlPath = some seg →
      dec seg = some v →
      query dec q urlPath body = Except.ok (Resp.ok ⟨q v, none⟩)) := by
  constructor
  · constructor
    · intro hres
      by_cases hbp : (body.getD ⟨none, none⟩).path = none
      · by_cases hew : strEndsWith urlPath "/query" = true
        · refine ⟨hbp, ?_, hew⟩
          by_contra hbps
          cases hps : (body.getD ⟨none, none⟩).paths with
          | none => exact hbps hps
          | some ps => simp [query, hbp, hps, hew] at hres
        · obtain ⟨seg, hseg⟩ := tailSegment_isSome hs
          rw [Bool.not_eq_true] at hew
          cases hdec : dec seg with
          | none => simp [query, hbp, hew, hseg, hdec] at hres
          | some v => simp [query, hbp, hew, hseg, hdec] at hres
      · cases hbp2 : (body.getD ⟨none, none⟩).path with
        | none => exact absurd hbp2 hbp
        | some p => simp [query, hbp2] at hres
    · rintro ⟨hbp, hbps, hew⟩
      simp [query, hbp, hbps, hew]
  · intro seg v hbp hew hseg hdec
    simp [query, hbp, hew, hseg, hdec]

/-- Witness for C4: the fail case at `/api/gw/query` with no body, and the
URL-derived case at `/api/gw/query/foo`. -/
theorem c4_witness :
    strStartsWith "/api/gw/query" "/" = true ∧
    (query Option.some (fun _ => none) "/api/gw/query" none =
      Except.ok (Resp.fail "param path and paths not find")) ∧
    strStartsWith "/api/gw/query/foo" "/" = true ∧
    (query Option.some (fun _ => some ["e1"]) "/api/gw/query/foo" none =
      Except.ok (Resp.ok ⟨some ["e1"], none⟩)) := by
  refine ⟨by decide, ?_, by decide, ?_⟩
  · exact (c4_query_fail_iff Option.some (fun _ => none) "/api/gw/query" none
      (by decide)).1.mpr ⟨rfl, rfl, by decide⟩
  · have h := (c4_query_fail_iff Option.some (fun _ => some ["e1"])
      "/api/gw/query/foo" none (by decide)).2 "foo" "foo" rfl (by decide)
      (by decide) rfl
    simpa using h


/-- Case analysis of `get_reply_param`: the result is a non-empty body
reply, or a query-string reply that decoded to a non-empty value, or a
non-empty decoded trailing URL segment (when the path does not end in
`/ping`), or the default `"pong"`. -/
theorem get_reply_param_resolution (dec : String → Option String)
    (b : Option String) (path qs : String) :
    (∃ r, b = some r ∧ r ≠ "" ∧ get_reply_param dec b path qs = r) ∨
    (∃ v, qs ≠ "" ∧ findReply dec (querify qs) = some v ∧
      get_reply_param dec b path qs = v) ∨
    (∃ seg v, strEndsWith path "/ping" = false ∧ tailSegment path = some seg ∧
      dec seg = some v ∧ v ≠ "" ∧ get_reply_param dec b path qs = v) ∨
    get_reply_param dec b path qs = "pong" := by
  by_cases hb : ∃ r, b = some r ∧ r ≠ ""
  · obtain ⟨r, rfl, hr⟩ := hb
    exact Or.inl ⟨r, rfl, hr, by simp [get_reply_param, hr]⟩
  · have hskip : get_reply_param dec b path qs =
        get_reply_param dec none path qs := by
      rcases b with _ | r
      · rfl
      · have hr : r = "" := by
          by_contra hr
          exact hb ⟨r, rfl, hr⟩
        subst hr
        simp [get_reply_param]
    rw [hskip]
    clear hskip hb
    by_cases hqs : qs = ""
    · subst hqs
      cases hping : strEndsWith path "/ping" with
      | true => exact Or.inr (Or.inr (Or.inr (by simp [get_reply_param, hping])))
      | false =>
        cases hts : tailSegment path with
        | none =>
          exact Or.inr (Or.inr (Or.inr (by simp [get_reply_param, hping, hts])))
        | some seg =>
          cases hd : dec seg with
          | none =>
            exact Or.inr (Or.inr (Or.inr
              (by simp [get_reply_param, hping, hts, hd])))
          | some v =>
            by_cases hv : v = ""
            · subst hv
              exact Or.inr (Or.inr (Or.inr
                (by simp [get_reply_param, hping, hts, hd])))
            · exact Or.inr (Or.inr (Or.inl ⟨seg, v, rfl, rfl, hd, hv,
                by simp [get_reply_param, hping, hts, hd, hv]⟩))
    · cases hf : findReply dec (querify qs) with
      | some v =>
        exact Or.inr (Or.inl ⟨v, hqs, rfl, by simp [get_reply_param, hqs, hf]⟩)
      | none =>
        cases hping : strEndsWith path "/ping" with
        | true =>
          exact Or.inr (Or.inr (Or.inr
            (by simp [get_reply_param, hqs, hf, hping])))
        | false =>
          cases hts : tailSegment path with
          | none =>
            exact Or.inr (Or.inr (Or.inr
              (by simp [get_reply_param, hqs, hf, hping, hts])))
          | some seg =>
            cases hd : dec seg with
            | none =>
              exact Or.inr (Or.inr (Or.inr
                (by simp [get_reply_param, hqs, hf, hping, hts, hd])))
            | some v =>
              by_cases hv : v = ""
              · subst hv
                exact Or.inr (Or.inr (Or.inr
                  (by simp [get_reply_param, hqs, hf, hping, hts, hd])))
              · exact Or.inr (Or.inr (Or.inl ⟨seg, v, rfl, rfl, hd, hv,
                  by simp [get_reply_param, hqs, hf, hping, hts, hd, hv]⟩))

/-- Claim C9: `get_reply_param` never returns the empty string — an empty
body reply, an empty or undecodable query-string reply, and an empty or
undecodable trailing URL segment are all skipped in favour of the next
source, ending at the non-empty default `"pong"`; in particular a body
whose reply is the empty string behaves exactly like a body without a
reply. -/
theorem c9_reply_never_empty (dec : String → Option String)
    (path qs : String) :
    (∀ bodyReply, get_reply_param dec bodyReply path qs ≠ "") ∧
    get_reply_param dec (some "") path qs =
      get_reply_param dec none path qs := by
  constructor
  · intro b
    rcases get_reply_param_resolution dec b path qs with
      ⟨r, _, hr, he⟩ | ⟨v, _, hf, he⟩ | ⟨seg, v, _, _, _, hv, he⟩ | he
    · rw [he]; exact hr
    · rw [he]; exact findReply_ne_empty dec (querify qs) v hf
    · rw [he]; exact hv
    · rw [he]; simp
  · simp [get_reply_param]


/-- Claim C3 counterexample: a ping request whose JSON body supplies the
`reply` field with the empty string. The claimed priority order (body
first, unconditionally) would resolve `reply` to `""`, but the handler
skips the empty body value and answers with the default `"pong"`. -/
theorem c3_counterexample :
    get_reply_param Option.some (some "") "/api/gw/ping" "" = "pong" ∧
    ping Option.some (some "") "/api/gw/ping" "" 0 "0.1.2" =
      Resp.ok ⟨"pong", 0, "httpproxy/0.1.2"⟩ ∧
    ("pong" : String) ≠ "" := by
  refine ⟨by decide, ?_, by decide⟩
  have h : (APP_NAME ++ "/" ++ "0.1.2" : String) = "httpproxy/0.1.2" := by decide
  simp only [ping, h]
  congr 1

/-- Claim C3 as amended: every ping response carries the fields `reply`,
`now` and `server`, and `reply` is resolved by priority over the usable
(non-empty, successfully decoded) candidates: a non-empty body `reply`,
else the first `reply=` query-string entry decoding to a non-empty value,
else the non-empty decoded trailing URL segment when the path does not end
in `/ping`, else the default `"pong"`. -/
theorem c3_reply_priority (dec : String → Option String) (b : Option String)
    (path qs : String) (now : Int) (appVer : String) :
    (ping dec b path qs now appVer =
      Resp.ok ⟨get_reply_param dec b path qs, now, APP_NAME ++ "/" ++ appVer⟩) ∧
    (∀ r, b = some r → r ≠ "" → get_reply_param dec b path qs = r) ∧
    ((b = none ∨ b = some "") → ∀ v, qs ≠ "" →
      findReply dec (querify qs) = some v →
      get_reply_param dec b path qs = v) ∧
    ((b = none ∨ b = some "") → (qs = "" ∨ findReply dec (querify qs) = none) →
      strEndsWith path "/ping" = false → ∀ seg v, tailSegment path = some seg →
      dec seg = some v → v ≠ "" → get_reply_param dec b path qs = v) ∧
    ((b = none ∨ b = some "") → (qs = "" ∨ findReply dec (querify qs) = none) →
      (strEndsWith path "/ping" = true ∨
        (∀ seg, tailSegment path = some seg →
          dec seg = none ∨ dec seg = some "")) →
      get_reply_param dec b path qs = "pong") := by
  refine ⟨rfl, ?_, ?_, ?_, ?_⟩
  · rintro r rfl hr
    simp [get_reply_param, hr]
  · rintro (rfl | rfl) v hqs hf <;> simp [get_reply_param, hqs, hf]
  · rintro hb hq hping seg v hts hd hv
    rcases hb with rfl | rfl <;> rcases hq with rfl | hf
    · simp [get_reply_param, hping, hts, hd, hv]
    · simp [get_reply_param, hf, hping, hts, hd, hv]
    · simp [get_reply_param, hping, hts, hd, hv]
    · simp [get_reply_param, hf, hping, hts, hd, hv]
  · rintro (rfl | rfl) (rfl | hf) (hping | hseg)
    · simp [get_reply_param, hping]
    · cases hts : tailSegment path with
      | none => simp [get_reply_param, hts]
      | some seg =>
        rcases hseg seg hts with hd | hd <;>
          simp [get_reply_param, hts, hd]
    · simp [get_reply_param, hf, hping]
    · cases hts : tailSegment path with
      | none => simp [get_reply_param, hf, hts]
      | some seg =>
        rcases hseg seg hts with hd | hd <;>
          simp [get_reply_param, hf, hts, hd]
    · simp [get_reply_param, hping]
    · cases hts : tailSegment path with
      | none => simp [get_reply_param, hts]
      | some seg =>
        rcases hseg seg hts with hd | hd <;>
          simp [get_reply_param, hts, hd]
    · simp [get_reply_param, hf, hping]
    · cases hts : tailSegment path with
      | none => simp [get_reply_param, hf, hts]
      | some seg =>
        rcases hseg seg hts with hd | hd <;>
          simp [get_reply_param, hf, hts, hd]

/-- Witness for the amended C3: a non-empty body reply wins, and with no
body reply the query string is consulted. -/
theorem c3_witness :
    get_reply_param Option.some (some "hi") "/api/gw/ping" "reply=x" = "hi" ∧
    get_reply_param Option.some none "/api/gw/ping" "reply=x" = "x" := by
  constructor
  · exact (c3_reply_priority Option.some (some "hi") "/api/gw/ping" "reply=x"
      0 "0.1.2").2.1 "hi" rfl (by decide)
  · exact (c3_reply_priority Option.some none "/api/gw/ping" "reply=x"
      0 "0.1.2").2.2.1 (Or.inl rfl) "x" (by decide) (by decide)

/-- Claim C8: with command-line parsing succeeding and startup proceeding,
an unparseable `conn-timeout`, an unparseable `threads`, or a listen value
(after the `:`-to-`0.0.0.0:` rewrite) rejected by the socket-address
parser makes startup end in a panic (`Except.error`), so the run result
`served` is never reached and no request is handled. -/
theorem c8_startup_config_panics (α : Type) (parseAddr : String → Option α)
    (parseLevel parseSize : String → Option Nat) (initLog : Option Unit)
    (ac : AppConf)
    (h : parseRustUInt 32 ac.conn_timeout = none ∨
      parseAddr (fixListen ac.listen) = none ∨
      parseRustUInt 64 ac.threads = none) :
    ∃ msg, main α parseAddr (some true) parseLevel parseSize initLog ac =
      Except.error msg := by
  cases hct : parseRustUInt 32 ac.conn_timeout with
  | none => exact ⟨arg_err "conn-timeout", by simp [main, init, hct]⟩
  | some ct =>
    cases hlv : parseLevel ac.log_level with
    | none => exact ⟨arg_err "log-level", by simp [main, init, hct, hlv]⟩
    | some lv =>
      cases hsz : parseSize ac.log_max with
      | none => exact ⟨arg_err "log-max", by simp [main, init, hct, hlv, hsz]⟩
      | some sz =>
        cases hlog : initLog with
        | none => exact ⟨"初始化日志错误", by simp [main, init, hct, hlv, hsz, hlog]⟩
        | some u =>
          rcases h with h | h | h
          · rw [hct] at h
            cases h
          · exact ⟨"called Result::unwrap on an Err value: AddrParseError",
              by simp [main, init, hct, hlv, hsz, hlog, h]⟩
          · cases haddr : parseAddr (fixListen ac.listen) with
            | none =>
              exact ⟨"called Result::unwrap on an Err value: AddrParseError",
                by simp [main, init, hct, hlv, hsz, hlog, haddr]⟩
            | some a =>
              exact ⟨arg_err "threads",
                by simp [main, init, hct, hlv, hsz, hlog, haddr, h]⟩

/-- Witness for C8: default configuration with a socket-address parser that
rejects the listen value. -/
theorem c8_witness :
    ∃ msg, main String (fun _ => none) (some true) (fun _ => some 0)
      (fun _ => some 0) (some ()) AppConf.default = Except.error msg :=
  c8_startup_config_panics String (fun _ => none) (fun _ => some 0)
    (fun _ => some 0) (some ()) AppConf.default (Or.inr (Or.inl rfl))

end HttpProxy
